import Mathlib

/-!
Shallow embedding of the transactional artifact store in
`src/server/src/main.py` of the cvmfs-ephemeral repository.

Modelling conventions:
- A repository's published state is a `Repo`: its artifact directory entries
  (name, is_dir) plus the parsed content of the TTL index sidecar `ttl.json`
  (`none` when the file does not exist, `some m` when it exists with the JSON
  object `m`).  The directory therefore contains the artifacts plus the index
  file iff `ttl` is `some`.
- An operation on a repository takes the published state (`Option Repo`,
  `none` when the repository directory `/cvmfs/{repo_name}` is absent) and
  returns the HTTP-level result, the trace of transaction-primitive events it
  issued (`cvmfs_server transaction` = `txBegin`, `cvmfs_server publish` =
  `txPublish`, `cvmfs_server abort -f` = `txAbort`, `cvmfs_swissknife notify`
  = `txNotify`), and the published state after the call.  `cvmfs_server abort`
  discards the open transaction's working tree, so the abort path returns the
  pre-call published state.
- The external transaction primitives themselves are modelled as succeeding;
  their own failures are the spec's `TransactionFailure`, outside the claims
  settled here.
- Timestamps (`time.time()`, `ttl_s`) are integers; floats play no role in
  the claims.  Python exceptions raised inside a transaction body are an
  inductive `PyExc` with a `message` rendering (abstracting Python's exact
  `str(e)` formatting such as errno prefixes and quotes).
- Points in the body where an external I/O action can fail (the artifact
  write in `upload`, the per-artifact unlink in `clean`) take an explicit
  failure-injection parameter, so that the `except`/abort paths of the code
  are reachable in the model.
-/

namespace CvmfsEphemeral

/-- `TTL_FILENAME = "ttl.json"` from main.py line 27. -/
def TTL_FILENAME : String := "ttl.json"

/-- `DEFAULT_TTL_S = 7200` from main.py line 28. -/
def DEFAULT_TTL_S : Int := 7200

/-- `PATH_BLACKLIST = [TTL_FILENAME]` from main.py line 30. -/
def PATH_BLACKLIST : List String := [TTL_FILENAME]

/-- The parsed content of `ttl.json`: a JSON object mapping artifact name to
its TTL record, which holds a single field `expires_at`.  Python dict
modelled as an association list (keys unique in every state the code
produces). -/
abbrev TTLMap := List (String × Int)

/-- One repository's published state: the artifact entries of the repository
directory (name, is_dir), and the TTL index file content (`none` = file
absent). Artifact entries never include `ttl.json` itself; the index file's
presence in the directory is recorded by `ttl`. -/
structure Repo where
  artifacts : List (String × Bool)
  ttl : Option TTLMap
deriving Repr, DecidableEq

/-- Transaction-primitive and notifier events, in the order the operation
issues them. -/
inductive TxEvent where
  | txBegin
  | txPublish
  | txAbort
  | txNotify
deriving Repr, DecidableEq

/-- `fastapi.HTTPException(status_code, detail)`. -/
structure HTTPExc where
  status : Nat
  detail : String
deriving Repr, DecidableEq

/-- Python exceptions that can be raised inside a transaction body in this
model. -/
inductive PyExc where
  | fileNotFound (path : String)
  | keyError (key : String)
  | ioError (msg : String)
deriving Repr, DecidableEq

/-- The `str(e)` rendering of a modelled Python exception (abstracting the
exact errno/quote formatting Python uses). -/
def PyExc.message : PyExc → String
  | .fileNotFound p => "No such file or directory: " ++ p
  | .keyError k => "KeyError: " ++ k
  | .ioError m => m

/-- Outcome of one HTTP operation: the FastAPI-level result, the trace of
external transaction events, and the published state afterwards. -/
structure OpOutcome (α : Type) where
  result : Except HTTPExc α
  events : List TxEvent
  state : Option Repo
deriving Repr

/-- `Except.isOk`-style discriminator for operation results. -/
def isErr : Except HTTPExc α → Bool
  | .error _ => true
  | .ok _ => false

/-! ### Python dict / directory primitives -/

/-- `name in dict` on the TTL object. -/
def hasKey (m : TTLMap) (k : String) : Bool :=
  m.any (fun p => p.1 = k)

/-- `dict[k]` (partial lookup). -/
def lookupKey (m : TTLMap) (k : String) : Option Int :=
  (m.find? (fun p => p.1 = k)).map Prod.snd

/-- `dict[k] = v`: replace in place if the key exists, append otherwise. -/
def insertKey (m : TTLMap) (k : String) (v : Int) : TTLMap :=
  if hasKey m k then m.map (fun p => if p.1 = k then (k, v) else p)
  else m ++ [(k, v)]

/-- `del dict[k]` after the key-presence check succeeded (removes every pair
with that key; keys are unique in reachable states). -/
def eraseKey (m : TTLMap) (k : String) : TTLMap :=
  m.filter (fun p => p.1 ≠ k)

/-- `Path(f"/cvmfs/{repo}/{name}").exists()` for an artifact name. -/
def hasArtifact (arts : List (String × Bool)) (n : String) : Bool :=
  arts.any (fun a => a.1 = n)

/-- `shutil.rmtree(path)` / `path.unlink()`: drop the named entry. -/
def removeArtifact (arts : List (String × Bool)) (n : String) :
    List (String × Bool) :=
  arts.filter (fun a => a.1 ≠ n)

/-- Writing artifact `n` (regular file when `isDir = false`, unpacked
directory tree when `true`) into the working directory. -/
def insertArtifact (arts : List (String × Bool)) (n : String) (isDir : Bool) :
    List (String × Bool) :=
  arts ++ [(n, isDir)]

/-- The TTL index of a possibly-absent repository:
`Path(f"/cvmfs/{repo}/ttl.json").exists()` is false when the repository
directory itself is absent. -/
def ttlOf : Option Repo → Option TTLMap
  | none => none
  | some r => r.ttl

/-! ### The five HTTP operations -/

/-- Response of `upload` (fields irrelevant to the claims, such as timing,
omitted). -/
structure UploadResp where
  filename : String
  expires_at : Int
deriving Repr, DecidableEq

/-- `upload` (main.py lines 151-226).  `isDir` stands for the `unpack` flag
(an unpacked upload produces a directory tree); `writeExc` injects a failure
of the artifact-write step (`docker_unpack` / `f.write`) inside the
transaction body. -/
def upload (st : Option Repo) (repoName fileName : String) (isDir : Bool)
    (overwrite : Bool) (ttl_s : Int) (now : Int) (writeExc : Option PyExc) :
    OpOutcome UploadResp :=
  if fileName ∈ PATH_BLACKLIST then
    ⟨.error ⟨400, "Filename " ++ fileName ++ " is not allowed"⟩, [], st⟩
  else
    match st with
    | none => ⟨.error ⟨404, "Repo " ++ repoName ++ " does not exist"⟩, [], none⟩
    | some repo =>
      if ¬ overwrite ∧ hasArtifact repo.artifacts fileName then
        ⟨.error ⟨409, "File " ++ fileName ++ " already exists"⟩, [], some repo⟩
      else
        match writeExc with
        | some _ =>
          ⟨.error ⟨500, "Failed to upload file"⟩, [.txBegin, .txAbort], some repo⟩
        | none =>
          let arts := insertArtifact (removeArtifact repo.artifacts fileName) fileName isDir
          let ttlObj := repo.ttl.getD []
          let ttlObj := insertKey ttlObj fileName (now + ttl_s)
          ⟨.ok ⟨fileName, now + ttl_s⟩, [.txBegin, .txPublish, .txNotify],
            some ⟨arts, some ttlObj⟩⟩

/-- Response of `update_ttl`. -/
structure TtlResp where
  filename : String
  ttl_s : Int
deriving Repr, DecidableEq

/-- `update_ttl` (main.py lines 228-264).  When the index file is absent,
`ttl_path.read_text()` raises `FileNotFoundError` inside the transaction
body; the handler aborts and surfaces a 500 whose detail interpolates the
exception. -/
def update_ttl (st : Option Repo) (repoName fileName : String)
    (ttl_s : Int) (now : Int) : OpOutcome TtlResp :=
  if fileName ∈ PATH_BLACKLIST then
    ⟨.error ⟨400, "Filename " ++ fileName ++ " is not allowed"⟩, [], st⟩
  else
    match st with
    | none =>
      ⟨.error ⟨404, "File " ++ fileName ++ " does not exist in repo " ++ repoName⟩,
        [], none⟩
    | some repo =>
      if ¬ hasArtifact repo.artifacts fileName then
        ⟨.error ⟨404, "File " ++ fileName ++ " does not exist in repo " ++ repoName⟩,
          [], some repo⟩
      else
        match repo.ttl with
        | none =>
          let e := PyExc.fileNotFound ("/cvmfs/" ++ repoName ++ "/" ++ TTL_FILENAME)
          ⟨.error ⟨500, "Failed to update TTL for file: " ++ fileName ++ ": " ++ e.message⟩,
            [.txBegin, .txAbort], some repo⟩
        | some ttlObj =>
          ⟨.ok ⟨fileName, ttl_s⟩, [.txBegin, .txPublish, .txNotify],
            some ⟨repo.artifacts, some (insertKey ttlObj fileName (now + ttl_s))⟩⟩

/-- Response of `delete`. -/
structure DeleteResp where
  target_name : String
deriving Repr, DecidableEq

/-- `delete` (main.py lines 289-331).  Inside the body, `ttl_path.read_text()`
raises `FileNotFoundError` when the index file is absent, and
`del ttl_obj[target_name]` raises `KeyError` when the target has no index
entry; both are caught, aborted, and surfaced as a generic 500. -/
def delete (st : Option Repo) (repoName targetName : String) :
    OpOutcome DeleteResp :=
  if targetName ∈ PATH_BLACKLIST then
    ⟨.error ⟨400, "Target `" ++ targetName ++ "` is not allowed"⟩, [], st⟩
  else
    match st with
    | none =>
      ⟨.error ⟨404, "File " ++ targetName ++ " does not exist in repo " ++ repoName⟩,
        [], none⟩
    | some repo =>
      if ¬ hasArtifact repo.artifacts targetName then
        ⟨.error ⟨404, "File " ++ targetName ++ " does not exist in repo " ++ repoName⟩,
          [], some repo⟩
      else
        match repo.ttl with
        | none =>
          ⟨.error ⟨500, "Failed to delete file"⟩, [.txBegin, .txAbort], some repo⟩
        | some ttlObj =>
          if ¬ hasKey ttlObj targetName then
            ⟨.error ⟨500, "Failed to delete file"⟩, [.txBegin, .txAbort], some repo⟩
          else
            ⟨.ok ⟨targetName⟩, [.txBegin, .txPublish, .txNotify],
              some ⟨removeArtifact repo.artifacts targetName,
                some (eraseKey ttlObj targetName)⟩⟩

/-- `list_files` (main.py lines 278-287): names of the immediate entries of
the repository directory that are files.  The directory holds the artifact
entries plus `ttl.json` itself when the index file exists; the code applies
no blacklist filter here. -/
def list_files (st : Option Repo) (repoName : String) :
    Except HTTPExc (List String) :=
  match st with
  | none => .error ⟨404, "Repo " ++ repoName ++ " does not exist"⟩
  | some repo =>
    .ok ((repo.artifacts.filter (fun a => ¬ a.2)).map Prod.fst
      ++ if repo.ttl.isSome then [TTL_FILENAME] else [])

/-- The success message `clean` builds at main.py line 383. -/
def cleanMsg (repoName : String) (cleaned errors : Nat) : String :=
  "Cleaned up " ++ toString cleaned ++ " expired files in repo: " ++ repoName
    ++ ". Errors: " ++ toString errors

/-- The no-op message `clean` returns at main.py line 344. -/
def noTtlMsg : String := "No TTL file found. Skipping clean up."

/-- The `for target_name, ttl in ttl_obj.copy().items()` loop of `clean`
(main.py lines 355-367), threading the working directory, the mutated
`ttl_obj`, and the `cleaned`/`errors` counters.  `failDelete n = true`
injects an I/O failure of the unlink/rmtree of artifact `n`, which escapes
the loop and is caught by the surrounding handler. -/
def cleanLoop (now : Int) (failDelete : String → Bool) :
    List (String × Int) → List (String × Bool) → TTLMap → Nat → Nat →
    Except PyExc (List (String × Bool) × TTLMap × Nat × Nat)
  | [], arts, ttlObj, cleaned, errors => .ok (arts, ttlObj, cleaned, errors)
  | (targetName, t) :: rest, arts, ttlObj, cleaned, errors =>
    if t < now then
      if hasArtifact arts targetName then
        if failDelete targetName then
          .error (.ioError ("could not remove /cvmfs/" ++ targetName))
        else
          cleanLoop now failDelete rest (removeArtifact arts targetName)
            (eraseKey ttlObj targetName) (cleaned + 1) errors
      else
        cleanLoop now failDelete rest arts (eraseKey ttlObj targetName)
          cleaned (errors + 1)
    else
      cleanLoop now failDelete rest arts ttlObj cleaned errors

/-- `clean` (main.py lines 333-386).  The success response is the JSON object
`{"message": msg}`, modelled as a field-name/value association list. -/
def clean (st : Option Repo) (repoName : String) (now : Int)
    (failDelete : String → Bool) : OpOutcome (List (String × String)) :=
  match st with
  | none => ⟨.ok [("message", noTtlMsg)], [], none⟩
  | some repo =>
    match repo.ttl with
    | none => ⟨.ok [("message", noTtlMsg)], [], some repo⟩
    | some ttlObj =>
      match cleanLoop now failDelete ttlObj repo.artifacts ttlObj 0 0 with
      | .error e =>
        ⟨.error ⟨500, "Failed to clean up expired files: " ++ e.message⟩,
          [.txBegin, .txAbort], some repo⟩
      | .ok (arts, ttlObj, _cleaned, _errors) =>
        ⟨.ok [("message", cleanMsg repoName _cleaned _errors)],
          [.txBegin, .txPublish, .txNotify], some ⟨arts, some ttlObj⟩⟩

/-! ### Derived notions used by the claims -/

/-- Whether the index snapshot `entries` holds an entry named `n` whose
`expires_at` is strictly in the past relative to `now`. -/
def entryExpiredB (entries : List (String × Int)) (now : Int) (n : String) : Bool :=
  entries.any (fun p => p.1 = n && p.2 < now)

/-- Decidable statement of the index-consistency invariant on one repository:
every index entry names a present artifact and every artifact has an index
entry. -/
def indexConsistent (r : Repo) : Bool :=
  ((r.ttl.getD []).map Prod.fst).all (fun n => hasArtifact r.artifacts n)
    && (r.artifacts.map Prod.fst).all (fun n => hasKey (r.ttl.getD []) n)

/-- A freshly provisioned repository: empty directory, no index file. -/
def freshRepo : Repo := ⟨[], none⟩

/-! ### Helper lemmas about the dict/directory primitives -/

theorem hasKey_iff (m : TTLMap) (n : String) :
    hasKey m n = true ↔ ∃ p ∈ m, p.1 = n := by
  simp [hasKey]

theorem hasArtifact_iff (arts : List (String × Bool)) (n : String) :
    hasArtifact arts n = true ↔ ∃ a ∈ arts, a.1 = n := by
  simp [hasArtifact]

theorem hasKey_insertKey (m : TTLMap) (k : String) (v : Int) (n : String) :
    hasKey (insertKey m k v) n = (hasKey m n || decide (n = k)) := by
  apply Bool.coe_iff_coe.mp
  rw [Bool.or_eq_true, decide_eq_true_eq, hasKey_iff, hasKey_iff]
  unfold insertKey
  by_cases h : hasKey m k = true
  · rw [if_pos (by simpa using h)]
    obtain ⟨q, hq, hqk⟩ := (hasKey_iff m k).mp h
    simp only [List.mem_map]
    constructor
    · rintro ⟨p, ⟨r, hr, rfl⟩, hpn⟩
      by_cases hrk : r.1 = k
      · rw [if_pos hrk] at hpn
        exact Or.inr hpn.symm
      · rw [if_neg hrk] at hpn
        exact Or.inl ⟨r, hr, hpn⟩
    · rintro (⟨p, hp, hpn⟩ | hnk)
      · by_cases hpk : p.1 = k
        · exact ⟨(k, v), ⟨q, hq, if_pos hqk⟩, hpk.symm.trans hpn⟩
        · exact ⟨p, ⟨p, hp, if_neg hpk⟩, hpn⟩
      · exact ⟨(k, v), ⟨q, hq, if_pos hqk⟩, hnk.symm⟩
  · rw [if_neg h]
    simp only [List.mem_append, List.mem_singleton]
    constructor
    · rintro ⟨p, hp | rfl, hpn⟩
      · exact Or.inl ⟨p, hp, hpn⟩
      · exact Or.inr hpn.symm
    · rintro (⟨p, hp, hpn⟩ | hnk)
      · exact ⟨p, Or.inl hp, hpn⟩
      · exact ⟨(k, v), Or.inr rfl, hnk.symm⟩

theorem hasKey_eraseKey (m : TTLMap) (k : String) (n : String) :
    hasKey (eraseKey m k) n = (hasKey m n && decide (n ≠ k)) := by
  apply Bool.coe_iff_coe.mp
  rw [Bool.and_eq_true, decide_eq_true_eq, hasKey_iff, hasKey_iff]
  simp only [eraseKey, List.mem_filter, decide_eq_true_eq]
  constructor
  · rintro ⟨p, ⟨hp, hpk⟩, rfl⟩
    exact ⟨⟨p, hp, rfl⟩, hpk⟩
  · rintro ⟨⟨p, hp, rfl⟩, hnk⟩
    exact ⟨p, ⟨hp, hnk⟩, rfl⟩

theorem hasArtifact_removeArtifact (arts : List (String × Bool)) (k n : String) :
    hasArtifact (removeArtifact arts k) n = (hasArtifact arts n && decide (n ≠ k)) := by
  apply Bool.coe_iff_coe.mp
  rw [Bool.and_eq_true, decide_eq_true_eq, hasArtifact_iff, hasArtifact_iff]
  simp only [removeArtifact, List.mem_filter, decide_eq_true_eq]
  constructor
  · rintro ⟨p, ⟨hp, hpk⟩, rfl⟩
    exact ⟨⟨p, hp, rfl⟩, hpk⟩
  · rintro ⟨⟨p, hp, rfl⟩, hnk⟩
    exact ⟨p, ⟨hp, hnk⟩, rfl⟩

theorem hasArtifact_insertArtifact (arts : List (String × Bool)) (k : String)
    (d : Bool) (n : String) :
    hasArtifact (insertArtifact arts k d) n = (hasArtifact arts n || decide (n = k)) := by
  apply Bool.coe_iff_coe.mp
  rw [Bool.or_eq_true, decide_eq_true_eq, hasArtifact_iff, hasArtifact_iff]
  simp only [insertArtifact, List.mem_append, List.mem_singleton]
  constructor
  · rintro ⟨p, hp | rfl, hpn⟩
    · exact Or.inl ⟨p, hp, hpn⟩
    · exact Or.inr hpn.symm
  · rintro (⟨p, hp, hpn⟩ | hnk)
    · exact ⟨p, Or.inl hp, hpn⟩
    · exact ⟨(k, d), Or.inr rfl, hnk.symm⟩

theorem hasArtifact_eq_false_iff (arts : List (String × Bool)) (n : String) :
    hasArtifact arts n = false ↔ ∀ a ∈ arts, a.1 ≠ n := by
  rw [← Bool.not_eq_true, hasArtifact_iff]
  push_neg
  rfl

theorem hasKey_eq_false_iff (m : TTLMap) (n : String) :
    hasKey m n = false ↔ ∀ p ∈ m, p.1 ≠ n := by
  rw [← Bool.not_eq_true, hasKey_iff]
  push_neg
  rfl

theorem entryExpiredB_iff (entries : List (String × Int)) (now : Int) (n : String) :
    entryExpiredB entries now n = true ↔ ∃ p ∈ entries, p.1 = n ∧ p.2 < now := by
  simp [entryExpiredB]

theorem entryExpiredB_cons (k : String) (t now : Int) (rest : List (String × Int))
    (x : String) :
    entryExpiredB ((k, t) :: rest) now x =
      ((decide (k = x) && decide (t < now)) || entryExpiredB rest now x) := by
  simp [entryExpiredB]

theorem entryExpiredB_nil (now : Int) (x : String) :
    entryExpiredB [] now x = false := by
  simp [entryExpiredB]

/-- Characterization of the sweep loop when no unlink failure is injected:
artifacts named by an expired snapshot entry are removed, expired entries
are dropped from the index object, and the counters advance by the number
of expired entries whose artifact is present (`cleaned`) respectively
absent (`errors`).  Requires the snapshot's keys to be duplicate-free,
which holds for every index object the code ever writes. -/
theorem cleanLoop_ok (now : Int) (entries : List (String × Int))
    (arts : List (String × Bool)) (m : TTLMap) (c e : Nat)
    (hnd : (entries.map Prod.fst).Nodup) :
    cleanLoop now (fun _ => false) entries arts m c e =
      .ok (arts.filter (fun a => !(entryExpiredB entries now a.1)),
        m.filter (fun p => !(entryExpiredB entries now p.1)),
        c + (entries.filter (fun p => decide (p.2 < now) && hasArtifact arts p.1)).length,
        e + (entries.filter (fun p => decide (p.2 < now) && !(hasArtifact arts p.1))).length) := by
  induction entries generalizing arts m c e with
  | nil =>
    simp [cleanLoop, entryExpiredB_nil]
  | cons hd rest ih =>
    obtain ⟨n, t⟩ := hd
    rw [List.map_cons, List.nodup_cons] at hnd
    obtain ⟨hn, hnd'⟩ := hnd
    by_cases ht : t < now
    · by_cases ha : hasArtifact arts n = true
      · rw [show cleanLoop now (fun _ => false) ((n, t) :: rest) arts m c e =
            cleanLoop now (fun _ => false) rest (removeArtifact arts n)
              (eraseKey m n) (c + 1) e by
          simp [cleanLoop, ht, ha]]
        rw [ih _ _ _ _ hnd']
        have hA : (removeArtifact arts n).filter
            (fun a => !(entryExpiredB rest now a.1)) =
            arts.filter (fun a => !(entryExpiredB ((n, t) :: rest) now a.1)) := by
          rw [removeArtifact, List.filter_filter]
          apply List.filter_congr
          intro a _
          rw [entryExpiredB_cons]
          apply Bool.coe_iff_coe.mp
          simp [ht]
          tauto
        have hM : (eraseKey m n).filter
            (fun p => !(entryExpiredB rest now p.1)) =
            m.filter (fun p => !(entryExpiredB ((n, t) :: rest) now p.1)) := by
          rw [eraseKey, List.filter_filter]
          apply List.filter_congr
          intro p _
          rw [entryExpiredB_cons]
          apply Bool.coe_iff_coe.mp
          simp [ht]
          tauto
        have hC : rest.filter
            (fun p => decide (p.2 < now) && hasArtifact (removeArtifact arts n) p.1) =
            rest.filter (fun p => decide (p.2 < now) && hasArtifact arts p.1) := by
          apply List.filter_congr
          intro p hp
          have hpn : p.1 ≠ n := by
            intro hcontra
            have hmem : p.1 ∈ rest.map Prod.fst := List.mem_map_of_mem Prod.fst hp
            exact hn (hcontra ▸ hmem)
          rw [hasArtifact_removeArtifact]
          simp [hpn]
        have hE : rest.filter
            (fun p => decide (p.2 < now) && !(hasArtifact (removeArtifact arts n) p.1)) =
            rest.filter (fun p => decide (p.2 < now) && !(hasArtifact arts p.1)) := by
          apply List.filter_congr
          intro p hp
          have hpn : p.1 ≠ n := by
            intro hcontra
            have hmem : p.1 ∈ rest.map Prod.fst := List.mem_map_of_mem Prod.fst hp
            exact hn (hcontra ▸ hmem)
          rw [hasArtifact_removeArtifact]
          simp [hpn]
        rw [hA, hM, hC, hE]
        have hCcons : ((n, t) :: rest).filter
            (fun p => decide (p.2 < now) && hasArtifact arts p.1) =
            ((n, t) :: rest.filter (fun p => decide (p.2 < now) && hasArtifact arts p.1)) := by
          rw [List.filter_cons_of_pos]
          simp [ht, ha]
        have hEcons : ((n, t) :: rest).filter
            (fun p => decide (p.2 < now) && !(hasArtifact arts p.1)) =
            rest.filter (fun p => decide (p.2 < now) && !(hasArtifact arts p.1)) := by
          rw [List.filter_cons_of_neg]
          simp [ht, ha]
        rw [hCcons, hEcons]
        simp only [List.length_cons, Except.ok.injEq, Prod.mk.injEq]
        refine ⟨?_, ?_, ?_, ?_⟩ <;> first | trivial | omega
      · rw [show cleanLoop now (fun _ => false) ((n, t) :: rest) arts m c e =
            cleanLoop now (fun _ => false) rest arts (eraseKey m n) c (e + 1) by
          simp [cleanLoop, ht, ha]]
        rw [ih _ _ _ _ hnd']
        have haf : ∀ a ∈ arts, a.1 ≠ n := (hasArtifact_eq_false_iff arts n).mp
          (by simpa using ha)
        have hA : arts.filter (fun a => !(entryExpiredB rest now a.1)) =
            arts.filter (fun a => !(entryExpiredB ((n, t) :: rest) now a.1)) := by
          apply List.filter_congr
          intro a hmem
          rw [entryExpiredB_cons]
          have : ¬ (n = a.1) := fun hcontra => haf a hmem hcontra.symm
          simp [this]
        have hM : (eraseKey m n).filter
            (fun p => !(entryExpiredB rest now p.1)) =
            m.filter (fun p => !(entryExpiredB ((n, t) :: rest) now p.1)) := by
          rw [eraseKey, List.filter_filter]
          apply List.filter_congr
          intro p _
          rw [entryExpiredB_cons]
          apply Bool.coe_iff_coe.mp
          simp [ht]
          tauto
        have hCcons : ((n, t) :: rest).filter
            (fun p => decide (p.2 < now) && hasArtifact arts p.1) =
            rest.filter (fun p => decide (p.2 < now) && hasArtifact arts p.1) := by
          rw [List.filter_cons_of_neg]
          simp [ht, ha]
        have hEcons : ((n, t) :: rest).filter
            (fun p => decide (p.2 < now) && !(hasArtifact arts p.1)) =
            ((n, t) :: rest.filter (fun p => decide (p.2 < now) && !(hasArtifact arts p.1))) := by
          rw [List.filter_cons_of_pos]
          simp [ht, ha]
        rw [hA, hM, hCcons, hEcons]
        simp only [List.length_cons, Except.ok.injEq, Prod.mk.injEq]
        refine ⟨?_, ?_, ?_, ?_⟩ <;> first | trivial | omega
    · rw [show cleanLoop now (fun _ => false) ((n, t) :: rest) arts m c e =
          cleanLoop now (fun _ => false) rest arts m c e by
        simp [cleanLoop, ht]]
      rw [ih _ _ _ _ hnd']
      have hA : arts.filter (fun a => !(entryExpiredB rest now a.1)) =
          arts.filter (fun a => !(entryExpiredB ((n, t) :: rest) now a.1)) := by
        apply List.filter_congr
        intro a _
        rw [entryExpiredB_cons]
        simp [ht]
      have hM : m.filter (fun p => !(entryExpiredB rest now p.1)) =
          m.filter (fun p => !(entryExpiredB ((n, t) :: rest) now p.1)) := by
        apply List.filter_congr
        intro p _
        rw [entryExpiredB_cons]
        simp [ht]
      have hCcons : ((n, t) :: rest).filter
          (fun p => decide (p.2 < now) && hasArtifact arts p.1) =
          rest.filter (fun p => decide (p.2 < now) && hasArtifact arts p.1) := by
        rw [List.filter_cons_of_neg]
        simp [ht]
      have hEcons : ((n, t) :: rest).filter
          (fun p => decide (p.2 < now) && !(hasArtifact arts p.1)) =
          rest.filter (fun p => decide (p.2 < now) && !(hasArtifact arts p.1)) := by
        rw [List.filter_cons_of_neg]
        simp [ht]
      rw [hA, hM, hCcons, hEcons]

/-! ### Clean characterization on well-formed indices -/

theorem mem_map_fst_iff_hasKey (m : TTLMap) (n : String) :
    n ∈ m.map Prod.fst ↔ hasKey m n = true := by
  rw [hasKey_iff]
  simp [List.mem_map]

theorem mem_map_fst_iff_hasArtifact (arts : List (String × Bool)) (n : String) :
    n ∈ arts.map Prod.fst ↔ hasArtifact arts n = true := by
  rw [hasArtifact_iff]
  simp [List.mem_map]

theorem hasKey_filterKey (m : TTLMap) (q : String → Bool) (n : String) :
    hasKey (m.filter (fun p => q p.1)) n = (hasKey m n && q n) := by
  apply Bool.coe_iff_coe.mp
  rw [Bool.and_eq_true, hasKey_iff, hasKey_iff]
  simp only [List.mem_filter]
  constructor
  · rintro ⟨p, ⟨hp, hq⟩, rfl⟩
    exact ⟨⟨p, hp, rfl⟩, hq⟩
  · rintro ⟨⟨p, hp, rfl⟩, hq⟩
    exact ⟨p, ⟨hp, hq⟩, rfl⟩

theorem hasArtifact_filterKey (arts : List (String × Bool)) (q : String → Bool)
    (n : String) :
    hasArtifact (arts.filter (fun a => q a.1)) n = (hasArtifact arts n && q n) := by
  apply Bool.coe_iff_coe.mp
  rw [Bool.and_eq_true, hasArtifact_iff, hasArtifact_iff]
  simp only [List.mem_filter]
  constructor
  · rintro ⟨p, ⟨hp, hq⟩, rfl⟩
    exact ⟨⟨p, hp, rfl⟩, hq⟩
  · rintro ⟨⟨p, hp, rfl⟩, hq⟩
    exact ⟨p, ⟨hp, hq⟩, rfl⟩

/-- On a duplicate-free index, an entry is expired precisely when its own
stamp is in the past, so the retained index is the filter on stamps. -/
theorem filter_expired_eq (m : TTLMap) (now : Int)
    (hnd : (m.map Prod.fst).Nodup) :
    m.filter (fun p => !(entryExpiredB m now p.1)) =
      m.filter (fun p => !(decide (p.2 < now))) := by
  apply List.filter_congr
  intro p hp
  congr 1
  apply Bool.coe_iff_coe.mp
  rw [entryExpiredB_iff, decide_eq_true_eq]
  constructor
  · rintro ⟨q, hq, hqp, hlt⟩
    have := List.inj_on_of_nodup_map hnd hq hp hqp
    exact this ▸ hlt
  · exact fun h => ⟨p, hp, rfl, h⟩

/-- Full characterization of a sweep on a repository whose index file exists
and has duplicate-free keys (true of every index the code writes): expired
entries are dropped, their present artifacts deleted, and the response
message carries the `cleaned` and `errors` counts. -/
theorem clean_ok (arts : List (String × Bool)) (m : TTLMap)
    (repoName : String) (now : Int) (hnd : (m.map Prod.fst).Nodup) :
    clean (some ⟨arts, some m⟩) repoName now (fun _ => false) =
      ⟨.ok [("message", cleanMsg repoName
          (m.filter (fun p => decide (p.2 < now) && hasArtifact arts p.1)).length
          (m.filter (fun p => decide (p.2 < now) && !(hasArtifact arts p.1))).length)],
        [.txBegin, .txPublish, .txNotify],
        some ⟨arts.filter (fun a => !(entryExpiredB m now a.1)),
          some (m.filter (fun p => !(decide (p.2 < now))))⟩⟩ := by
  rw [show clean (some ⟨arts, some m⟩) repoName now (fun _ => false) =
      match cleanLoop now (fun _ => false) m arts m 0 0 with
      | .error e =>
        ⟨.error ⟨500, "Failed to clean up expired files: " ++ e.message⟩,
          [.txBegin, .txAbort], some ⟨arts, some m⟩⟩
      | .ok (arts2, ttlObj2, c2, e2) =>
        ⟨.ok [("message", cleanMsg repoName c2 e2)],
          [.txBegin, .txPublish, .txNotify], some ⟨arts2, some ttlObj2⟩⟩ from rfl]
  rw [cleanLoop_ok now m arts m 0 0 hnd, ← filter_expired_eq m now hnd]
  simp only [Nat.zero_add]

/-- A sweep run under an arbitrary injected-failure environment that
nevertheless returns `.ok` took exactly the failure-free path. -/
theorem cleanLoop_ok_of_ok (now : Int) (f : String → Bool)
    (entries : List (String × Int)) (arts : List (String × Bool)) (m : TTLMap)
    (c e : Nat) (out : List (String × Bool) × TTLMap × Nat × Nat)
    (h : cleanLoop now f entries arts m c e = .ok out) :
    cleanLoop now (fun _ => false) entries arts m c e = .ok out := by
  induction entries generalizing arts m c e with
  | nil => exact h
  | cons hd rest ih =>
    obtain ⟨n, t⟩ := hd
    by_cases ht : t < now
    · by_cases ha : hasArtifact arts n = true
      · by_cases hf : f n = true
        · rw [show cleanLoop now f ((n, t) :: rest) arts m c e =
              .error (.ioError ("could not remove /cvmfs/" ++ n)) by
            simp [cleanLoop, ht, ha, hf]] at h
          exact absurd h (by simp)
        · rw [show cleanLoop now f ((n, t) :: rest) arts m c e =
              cleanLoop now f rest (removeArtifact arts n) (eraseKey m n)
                (c + 1) e by
            simp [cleanLoop, ht, ha, hf]] at h
          rw [show cleanLoop now (fun _ => false) ((n, t) :: rest) arts m c e =
              cleanLoop now (fun _ => false) rest (removeArtifact arts n)
                (eraseKey m n) (c + 1) e by
            simp [cleanLoop, ht, ha]]
          exact ih _ _ _ _ h
      · rw [show cleanLoop now f ((n, t) :: rest) arts m c e =
            cleanLoop now f rest arts (eraseKey m n) c (e + 1) by
          simp [cleanLoop, ht, ha]] at h
        rw [show cleanLoop now (fun _ => false) ((n, t) :: rest) arts m c e =
            cleanLoop now (fun _ => false) rest arts (eraseKey m n) c (e + 1) by
          simp [cleanLoop, ht, ha]]
        exact ih _ _ _ _ h
    · rw [show cleanLoop now f ((n, t) :: rest) arts m c e =
          cleanLoop now f rest arts m c e by
        simp [cleanLoop, ht]] at h
      rw [show cleanLoop now (fun _ => false) ((n, t) :: rest) arts m c e =
          cleanLoop now (fun _ => false) rest arts m c e by
        simp [cleanLoop, ht]]
      exact ih _ _ _ _ h

/-! ### Well-formedness invariant and reachable states -/

/-- Structural well-formedness of a repository state: duplicate-free index
keys, duplicate-free directory entries, and the index-consistency property
that a name has an index entry iff it names a present artifact. -/
def RepoWF (r : Repo) : Prop :=
  ((r.ttl.getD []).map Prod.fst).Nodup ∧
  (r.artifacts.map Prod.fst).Nodup ∧
  ∀ n, hasKey (r.ttl.getD []) n = hasArtifact r.artifacts n

/-- One successful mutating operation (upload, TTL update, delete, or sweep)
carrying published state `r` to published state `r'`. -/
def SuccessStep (r r' : Repo) : Prop :=
  (∃ rn fn d ow t now wexc,
    isErr (upload (some r) rn fn d ow t now wexc).result = false ∧
    (upload (some r) rn fn d ow t now wexc).state = some r') ∨
  (∃ rn fn t now,
    isErr (update_ttl (some r) rn fn t now).result = false ∧
    (update_ttl (some r) rn fn t now).state = some r') ∨
  (∃ rn tn,
    isErr (delete (some r) rn tn).result = false ∧
    (delete (some r) rn tn).state = some r') ∨
  (∃ rn now fd,
    isErr (clean (some r) rn now fd).result = false ∧
    (clean (some r) rn now fd).state = some r')

/-- States reachable from a freshly provisioned repository by successful
operations only. -/
inductive Reachable : Repo → Prop where
  | init : Reachable freshRepo
  | step (r r' : Repo) : Reachable r → SuccessStep r r' → Reachable r'

theorem nodup_keys_insertKey (m : TTLMap) (k : String) (v : Int)
    (hnd : (m.map Prod.fst).Nodup) :
    ((insertKey m k v).map Prod.fst).Nodup := by
  unfold insertKey
  by_cases h : hasKey m k = true
  · rw [if_pos h]
    have hmap : (m.map (fun p => if p.1 = k then (k, v) else p)).map Prod.fst
        = m.map Prod.fst := by
      rw [List.map_map]
      apply List.map_eq_map_iff.mpr
      intro p _
      by_cases hpk : p.1 = k <;> simp [hpk, Function.comp]
    rw [hmap]
    exact hnd
  · rw [if_neg h]
    rw [List.map_append]
    simp only [List.map_cons, List.map_nil]
    rw [List.nodup_append]
    refine ⟨hnd, List.nodup_singleton k, ?_⟩
    intro x hx hk
    rw [List.mem_singleton] at hk
    subst hk
    exact h ((mem_map_fst_iff_hasKey m _).mp hx)

theorem nodup_names_removeArtifact (arts : List (String × Bool)) (k : String)
    (hnd : (arts.map Prod.fst).Nodup) :
    ((removeArtifact arts k).map Prod.fst).Nodup :=
  List.Nodup.sublist ((List.filter_sublist arts).map Prod.fst) hnd

theorem nodup_keys_eraseKey (m : TTLMap) (k : String)
    (hnd : (m.map Prod.fst).Nodup) :
    ((eraseKey m k).map Prod.fst).Nodup :=
  List.Nodup.sublist ((List.filter_sublist m).map Prod.fst) hnd

theorem nodup_names_insert_remove (arts : List (String × Bool)) (k : String)
    (d : Bool) (hnd : (arts.map Prod.fst).Nodup) :
    ((insertArtifact (removeArtifact arts k) k d).map Prod.fst).Nodup := by
  unfold insertArtifact
  rw [List.map_append]
  simp only [List.map_cons, List.map_nil]
  rw [List.nodup_append]
  refine ⟨nodup_names_removeArtifact arts k hnd, List.nodup_singleton k, ?_⟩
  intro x hx hk
  rw [List.mem_singleton] at hk
  subst hk
  have := (mem_map_fst_iff_hasArtifact _ x).mp hx
  rw [hasArtifact_removeArtifact] at this
  simp at this

theorem wf_upload (r : Repo) (rn fn : String) (d ow : Bool) (t now : Int)
    (wexc : Option PyExc) (r' : Repo)
    (h1 : isErr (upload (some r) rn fn d ow t now wexc).result = false)
    (h2 : (upload (some r) rn fn d ow t now wexc).state = some r')
    (hwf : RepoWF r) : RepoWF r' := by
  obtain ⟨hk, ha, hc⟩ := hwf
  by_cases hbl : fn ∈ PATH_BLACKLIST
  · simp [upload, hbl, isErr] at h1
  by_cases hcf : ow = false ∧ hasArtifact r.artifacts fn = true
  · simp [upload, hbl, hcf.1, hcf.2, isErr] at h1
  cases wexc with
  | some e => simp [upload, hbl, hcf, isErr] at h1
  | none =>
    have hst : (upload (some r) rn fn d ow t now none).state =
        some ⟨insertArtifact (removeArtifact r.artifacts fn) fn d,
          some (insertKey (r.ttl.getD []) fn (now + t))⟩ := by
      simp [upload, hbl, hcf]
    rw [hst] at h2
    obtain rfl := (Option.some.injEq _ _).mp h2
    refine ⟨?_, ?_, ?_⟩
    · simpa using nodup_keys_insertKey (r.ttl.getD []) fn (now + t) hk
    · simpa using nodup_names_insert_remove r.artifacts fn d ha
    · intro n
      simp only [Option.getD_some]
      rw [hasKey_insertKey, hasArtifact_insertArtifact, hasArtifact_removeArtifact,
        hc n]
      by_cases hn : n = fn <;> simp [hn]

theorem wf_update_ttl (r : Repo) (rn fn : String) (t now : Int) (r' : Repo)
    (h1 : isErr (update_ttl (some r) rn fn t now).result = false)
    (h2 : (update_ttl (some r) rn fn t now).state = some r')
    (hwf : RepoWF r) : RepoWF r' := by
  obtain ⟨hk, ha, hc⟩ := hwf
  by_cases hbl : fn ∈ PATH_BLACKLIST
  · simp [update_ttl, hbl, isErr] at h1
  by_cases hart : hasArtifact r.artifacts fn = true
  · cases hm : r.ttl with
    | none => simp [update_ttl, hbl, hart, hm, isErr] at h1
    | some m =>
      have hst : (update_ttl (some r) rn fn t now).state =
          some ⟨r.artifacts, some (insertKey m fn (now + t))⟩ := by
        simp [update_ttl, hbl, hart, hm]
      rw [hst] at h2
      obtain rfl := (Option.some.injEq _ _).mp h2
      rw [hm] at hk hc
      simp only [Option.getD_some] at hk hc
      refine ⟨?_, ha, ?_⟩
      · simpa using nodup_keys_insertKey m fn (now + t) hk
      · intro n
        simp only [Option.getD_some]
        rw [hasKey_insertKey, hc n]
        by_cases hn : n = fn
        · subst hn
          simp [hart]
        · simp [hn]
  · simp [update_ttl, hbl, hart, isErr] at h1

theorem wf_delete (r : Repo) (rn tn : String) (r' : Repo)
    (h1 : isErr (delete (some r) rn tn).result = false)
    (h2 : (delete (some r) rn tn).state = some r')
    (hwf : RepoWF r) : RepoWF r' := by
  obtain ⟨hk, ha, hc⟩ := hwf
  by_cases hbl : tn ∈ PATH_BLACKLIST
  · simp [delete, hbl, isErr] at h1
  by_cases hart : hasArtifact r.artifacts tn = true
  · cases hm : r.ttl with
    | none => simp [delete, hbl, hart, hm, isErr] at h1
    | some m =>
      by_cases hkey : hasKey m tn = true
      · have hst : (delete (some r) rn tn).state =
            some ⟨removeArtifact r.artifacts tn, some (eraseKey m tn)⟩ := by
          simp [delete, hbl, hart, hm, hkey]
        rw [hst] at h2
        obtain rfl := (Option.some.injEq _ _).mp h2
        rw [hm] at hk hc
        simp only [Option.getD_some] at hk hc
        refine ⟨?_, ?_, ?_⟩
        · simpa using nodup_keys_eraseKey m tn hk
        · simpa using nodup_names_removeArtifact r.artifacts tn ha
        · intro n
          simp only [Option.getD_some]
          rw [hasKey_eraseKey, hasArtifact_removeArtifact, hc n]
      · simp [delete, hbl, hart, hm, hkey, isErr] at h1
  · simp [delete, hbl, hart, isErr] at h1

theorem wf_clean (r : Repo) (rn : String) (now : Int) (fd : String → Bool)
    (r' : Repo)
    (h1 : isErr (clean (some r) rn now fd).result = false)
    (h2 : (clean (some r) rn now fd).state = some r')
    (hwf : RepoWF r) : RepoWF r' := by
  obtain ⟨hk, ha, hc⟩ := hwf
  cases hm : r.ttl with
  | none =>
    have hst : (clean (some r) rn now fd).state = some r := by
      simp [clean, hm]
    rw [hst] at h2
    obtain rfl := (Option.some.injEq _ _).mp h2
    exact ⟨hk, ha, hc⟩
  | some m =>
    rw [hm] at hk hc
    simp only [Option.getD_some] at hk hc
    cases hloop : cleanLoop now fd m r.artifacts m 0 0 with
    | error e => simp [clean, hm, hloop, isErr] at h1
    | ok out =>
      have hout := cleanLoop_ok_of_ok now fd m r.artifacts m 0 0 out hloop
      rw [cleanLoop_ok now m r.artifacts m 0 0 hk] at hout
      have hout' := (Except.ok.injEq _ _).mp hout.symm
      have hst : (clean (some r) rn now fd).state =
          some ⟨out.1, some out.2.1⟩ := by
        simp [clean, hm, hloop]
      rw [hst] at h2
      obtain rfl := (Option.some.injEq _ _).mp h2
      rw [hout']
      refine ⟨?_, ?_, ?_⟩
      · simpa using List.Nodup.sublist ((List.filter_sublist m).map Prod.fst) hk
      · simpa using List.Nodup.sublist
          ((List.filter_sublist r.artifacts).map Prod.fst) ha
      · intro n
        simp only [Option.getD_some]
        rw [hasKey_filterKey m (fun x => !(entryExpiredB m now x)) n,
          hasArtifact_filterKey r.artifacts (fun x => !(entryExpiredB m now x)) n,
          hc n]

/-- Every state reachable from a fresh repository by successful operations is
well-formed; in particular its TTL index keys coincide with its artifact
names. -/
theorem reachable_wf (r : Repo) (h : Reachable r) : RepoWF r := by
  induction h with
  | init =>
    refine ⟨List.nodup_nil, List.nodup_nil, fun n => ?_⟩
    simp [freshRepo, hasKey, hasArtifact]
  | step r r' _ hstep ih =>
    rcases hstep with ⟨rn, fn, d, ow, t, now, wexc, h1, h2⟩ |
      ⟨rn, fn, t, now, h1, h2⟩ | ⟨rn, tn, h1, h2⟩ | ⟨rn, now, fd, h1, h2⟩
    · exact wf_upload r rn fn d ow t now wexc r' h1 h2 ih
    · exact wf_update_ttl r rn fn t now r' h1 h2 ih
    · exact wf_delete r rn tn r' h1 h2 ih
    · exact wf_clean r rn now fd r' h1 h2 ih

/-! ### Claims -/

/-- C1: For every mutating operation (upload, deleteArtifact, updateTTL) on
any repository, if the call returns an error (NotFound, Forbidden, Conflict,
or OperationFailure recovered by abort), then the repository's published
state after the call — its set of artifacts and its TTL index — equals the
state before the call. -/
theorem claim_c1_atomicity (st : Option Repo) (rn fn : String) (d ow : Bool)
    (t now : Int) (wexc : Option PyExc) :
    (isErr (upload st rn fn d ow t now wexc).result = true →
      (upload st rn fn d ow t now wexc).state = st) ∧
    (isErr (update_ttl st rn fn t now).result = true →
      (update_ttl st rn fn t now).state = st) ∧
    (isErr (delete st rn fn).result = true →
      (delete st rn fn).state = st) := by
  refine ⟨?_, ?_, ?_⟩ <;> intro h
  · by_cases hbl : fn ∈ PATH_BLACKLIST
    · simp [upload, hbl]
    cases st with
    | none => simp [upload, hbl]
    | some r =>
      by_cases hcf : ow = false ∧ hasArtifact r.artifacts fn = true
      · simp [upload, hbl, hcf.1, hcf.2]
      · cases wexc with
        | some e => simp [upload, hbl, hcf]
        | none => simp [upload, hbl, hcf, isErr] at h
  · by_cases hbl : fn ∈ PATH_BLACKLIST
    · simp [update_ttl, hbl]
    cases st with
    | none => simp [update_ttl, hbl]
    | some r =>
      by_cases hart : hasArtifact r.artifacts fn = true
      · cases hm : r.ttl with
        | none => simp [update_ttl, hbl, hart, hm]
        | some m => simp [update_ttl, hbl, hart, hm, isErr] at h
      · simp [update_ttl, hbl, hart]
  · by_cases hbl : fn ∈ PATH_BLACKLIST
    · simp [delete, hbl]
    cases st with
    | none => simp [delete, hbl]
    | some r =>
      by_cases hart : hasArtifact r.artifacts fn = true
      · cases hm : r.ttl with
        | none => simp [delete, hbl, hart, hm]
        | some m =>
          by_cases hkey : hasKey m fn = true
          · simp [delete, hbl, hart, hm, hkey, isErr] at h
          · simp [delete, hbl, hart, hm, hkey]
      · simp [delete, hbl, hart]

/-- Witness for C1 at a concrete erroring input: all three operations on an
absent repository fail and leave the (absent) published state unchanged. -/
theorem claim_c1_atomicity_witness :
    (upload none "r" "a" false false 5 0 none).state = none ∧
    (update_ttl none "r" "a" 5 0).state = none ∧
    (delete none "r" "a").state = none :=
  ⟨(claim_c1_atomicity none "r" "a" false false 5 0 none).1 rfl,
   (claim_c1_atomicity none "r" "a" false false 5 0 none).2.1 rfl,
   (claim_c1_atomicity none "r" "a" false false 5 0 none).2.2 rfl⟩

/-- C5: For every repository name and every call to upload, deleteArtifact,
or updateTTL whose target name equals the reserved index filename
(`ttl.json`), the call fails with Forbidden (HTTP 400) — never with NotFound
or Conflict — regardless of repository or artifact existence, with no
transaction opened and no state changed. -/
theorem claim_c5_reserved_name (st : Option Repo) (rn : String) (d ow : Bool)
    (t now : Int) (wexc : Option PyExc) :
    upload st rn TTL_FILENAME d ow t now wexc =
      ⟨.error ⟨400, "Filename " ++ TTL_FILENAME ++ " is not allowed"⟩, [], st⟩ ∧
    update_ttl st rn TTL_FILENAME t now =
      ⟨.error ⟨400, "Filename " ++ TTL_FILENAME ++ " is not allowed"⟩, [], st⟩ ∧
    delete st rn TTL_FILENAME =
      ⟨.error ⟨400, "Target `" ++ TTL_FILENAME ++ "` is not allowed"⟩, [], st⟩ := by
  have hmem : TTL_FILENAME ∈ PATH_BLACKLIST := List.mem_singleton.mpr rfl
  exact ⟨by simp [upload, hmem], by simp [update_ttl, hmem], by simp [delete, hmem]⟩

/-- C8: For every repository whose TTL index file does not exist, sweep
performs no transaction at all — no begin, no publish, no abort, no state
change of any kind — and returns a no-op message. -/
theorem claim_c8_noop_sweep (st : Option Repo) (rn : String) (now : Int)
    (fd : String → Bool) (h : ttlOf st = none) :
    clean st rn now fd = ⟨.ok [("message", noTtlMsg)], [], st⟩ := by
  cases st with
  | none => rfl
  | some r =>
    have hr : r.ttl = none := h
    simp [clean, hr]

/-- Witness for C8: sweeping a repository holding one artifact but no index
file is a transaction-free no-op. -/
theorem claim_c8_noop_sweep_witness :
    clean (some ⟨[("a", false)], none⟩) "r" 10 (fun _ => false) =
      ⟨.ok [("message", noTtlMsg)], [], some ⟨[("a", false)], none⟩⟩ :=
  claim_c8_noop_sweep (some ⟨[("a", false)], none⟩) "r" 10 (fun _ => false) rfl

/-- C9: For every repository and every artifact that exists on disk but has
no entry in the TTL index (or whose repository has no index file at all),
deleteArtifact fails with OperationFailure (500) after aborting the
transaction, and the artifact remains present in the published state. -/
theorem claim_c9_delete_without_entry (r : Repo) (rn tn : String)
    (hbl : tn ∉ PATH_BLACKLIST)
    (hart : hasArtifact r.artifacts tn = true)
    (hkey : hasKey (r.ttl.getD []) tn = false) :
    delete (some r) rn tn =
      ⟨.error ⟨500, "Failed to delete file"⟩, [.txBegin, .txAbort], some r⟩ ∧
    hasArtifact (((delete (some r) rn tn).state.getD freshRepo).artifacts) tn
      = true := by
  have hout : delete (some r) rn tn =
      ⟨.error ⟨500, "Failed to delete file"⟩, [.txBegin, .txAbort], some r⟩ := by
    cases hm : r.ttl with
    | none => simp [delete, hbl, hart, hm]
    | some m =>
      rw [hm] at hkey
      simp only [Option.getD_some] at hkey
      simp [delete, hbl, hart, hm, hkey]
  refine ⟨hout, ?_⟩
  rw [hout]
  simpa using hart

/-- Witness for C9: deleting artifact `a` from a repository that has no
index file aborts with a 500 and leaves `a` published. -/
theorem claim_c9_delete_without_entry_witness :
    delete (some ⟨[("a", false)], none⟩) "r" "a" =
      ⟨.error ⟨500, "Failed to delete file"⟩, [.txBegin, .txAbort],
        some ⟨[("a", false)], none⟩⟩ ∧
    hasArtifact (((delete (some ⟨[("a", false)], none⟩) "r" "a").state.getD
      freshRepo).artifacts) "a" = true :=
  claim_c9_delete_without_entry ⟨[("a", false)], none⟩ "r" "a"
    (by decide) rfl rfl

/-- C10: For every repository whose TTL index file does not exist, updateTTL
on an artifact that exists on disk fails with OperationFailure after
aborting the transaction, rather than creating the index — unlike upload,
which treats a missing index file as an empty mapping and succeeds, creating
the index with the single new entry. -/
theorem claim_c10_update_ttl_missing_index (r : Repo) (rn fn : String)
    (d : Bool) (t now : Int)
    (hbl : fn ∉ PATH_BLACKLIST)
    (hart : hasArtifact r.artifacts fn = true)
    (httl : r.ttl = none) :
    update_ttl (some r) rn fn t now =
      ⟨.error ⟨500, "Failed to update TTL for file: " ++ fn ++ ": " ++
        (PyExc.fileNotFound ("/cvmfs/" ++ rn ++ "/" ++ TTL_FILENAME)).message⟩,
        [.txBegin, .txAbort], some r⟩ ∧
    (upload (some r) rn fn d true t now none).result = .ok ⟨fn, now + t⟩ ∧
    (upload (some r) rn fn d true t now none).state =
      some ⟨insertArtifact (removeArtifact r.artifacts fn) fn d,
        some [(fn, now + t)]⟩ := by
  refine ⟨?_, ?_, ?_⟩
  · simp [update_ttl, hbl, hart, httl]
  · simp [upload, hbl]
  · simp [upload, hbl, httl, insertKey, hasKey]

/-- Witness for C10: with artifact `a` on disk and no index file, updateTTL
aborts with a 500 while upload succeeds and creates the index `{a}`. -/
theorem claim_c10_update_ttl_missing_index_witness :
    update_ttl (some ⟨[("a", false)], none⟩) "r" "a" 5 0 =
      ⟨.error ⟨500, "Failed to update TTL for file: " ++ "a" ++ ": " ++
        (PyExc.fileNotFound ("/cvmfs/" ++ "r" ++ "/" ++ TTL_FILENAME)).message⟩,
        [.txBegin, .txAbort], some ⟨[("a", false)], none⟩⟩ ∧
    (upload (some ⟨[("a", false)], none⟩) "r" "a" false true 5 0 none).result =
      .ok ⟨"a", 0 + 5⟩ ∧
    (upload (some ⟨[("a", false)], none⟩) "r" "a" false true 5 0 none).state =
      some ⟨insertArtifact (removeArtifact [("a", false)] "a") "a" false,
        some [("a", 0 + 5)]⟩ :=
  claim_c10_update_ttl_missing_index ⟨[("a", false)], none⟩ "r" "a" false 5 0
    (by decide) rfl rfl

/-- C2: For every repository, after any sequence of successful operations
(upload, deleteArtifact, updateTTL, sweep) starting from a freshly
provisioned repository, the set of artifact names that have a TTL index
entry equals exactly the set of artifacts uploaded through the store and not
yet deleted (which, from a fresh state, is the set of artifacts present). -/
theorem claim_c2_index_consistency (r : Repo) (h : Reachable r) :
    indexConsistent r = true := by
  obtain ⟨_, _, hc⟩ := reachable_wf r h
  rw [indexConsistent, Bool.and_eq_true, List.all_eq_true, List.all_eq_true]
  constructor
  · intro n hn
    rw [← hc n]
    exact (mem_map_fst_iff_hasKey _ n).mp hn
  · intro n hn
    rw [hc n]
    exact (mem_map_fst_iff_hasArtifact _ n).mp hn

/-- Witness for C2 at a concrete reachable state: fresh repository, then a
successful upload of `a`, then a successful sweep that removes it again. -/
theorem claim_c2_index_consistency_witness :
    indexConsistent ⟨[("a", false)], some [("a", 5)]⟩ = true :=
  claim_c2_index_consistency ⟨[("a", false)], some [("a", 5)]⟩
    (Reachable.step freshRepo ⟨[("a", false)], some [("a", 5)]⟩ Reachable.init
      (Or.inl ⟨"r", "a", false, false, 5, 0, none, rfl, rfl⟩))

/-- C3: For every repository with a TTL index (with duplicate-free keys, as
the code always writes), sweep processes each index entry whose expires_at
is strictly less than the current time: if the artifact exists it is deleted
and counted in `cleaned`, if absent it is counted in `errors`, and in both
cases the index entry is removed; every entry whose expires_at is not
strictly in the past, and its artifact, are left unchanged. -/
theorem claim_c3_sweep (arts : List (String × Bool)) (m : TTLMap)
    (rn : String) (now : Int) (hnd : (m.map Prod.fst).Nodup) :
    clean (some ⟨arts, some m⟩) rn now (fun _ => false) =
      ⟨.ok [("message", cleanMsg rn
          (m.filter (fun p => decide (p.2 < now) && hasArtifact arts p.1)).length
          (m.filter (fun p => decide (p.2 < now) && !(hasArtifact arts p.1))).length)],
        [.txBegin, .txPublish, .txNotify],
        some ⟨arts.filter (fun a => !(entryExpiredB m now a.1)),
          some (m.filter (fun p => !(decide (p.2 < now))))⟩⟩ :=
  clean_ok arts m rn now hnd

/-- Witness for C3: index `{a: 100, b: 2000}` at time 1000 with both
artifacts present — `a` is deleted and its entry dropped, `b` and its entry
are retained, and the message reports 1 cleaned, 0 errors. -/
theorem claim_c3_sweep_witness :
    clean (some ⟨[("a", false), ("b", false)], some [("a", 100), ("b", 2000)]⟩)
      "r" 1000 (fun _ => false) =
      ⟨.ok [("message", cleanMsg "r" 1 0)],
        [.txBegin, .txPublish, .txNotify],
        some ⟨[("b", false)], some [("b", 2000)]⟩⟩ :=
  (claim_c3_sweep [("a", false), ("b", false)] [("a", 100), ("b", 2000)]
    "r" 1000 (by decide)).trans (by rfl)

/-- C4 counterexample: with artifact `a` and an existing index file, the
returned listing contains the reserved index filename — the code's
`list_files` applies no blacklist filter — refuting the claim that `ttl.json`
never appears in the returned list. -/
theorem claim_c4_counterexample :
    list_files (some ⟨[("a", false)], some [("a", 100)]⟩) "r" =
      .ok ["a", TTL_FILENAME] ∧
    TTL_FILENAME ∈ ["a", TTL_FILENAME] :=
  ⟨rfl, by decide⟩

/-- C4 (amended): for every existing repository, listArtifacts returns
exactly the immediate entries of the repository directory that are files —
with no exclusion of the reserved index filename: `ttl.json` appears in the
returned list precisely when the index file exists. -/
theorem claim_c4_list_files (r : Repo) (rn n : String) :
    list_files (some r) rn =
      .ok ((r.artifacts.filter (fun a => ¬ a.2)).map Prod.fst
        ++ if r.ttl.isSome then [TTL_FILENAME] else []) ∧
    (n ∈ (r.artifacts.filter (fun a => ¬ a.2)).map Prod.fst
        ++ (if r.ttl.isSome then [TTL_FILENAME] else []) ↔
      (∃ a ∈ r.artifacts, a.1 = n ∧ a.2 = false) ∨
        (n = TTL_FILENAME ∧ r.ttl.isSome = true)) := by
  refine ⟨rfl, ?_⟩
  rw [List.mem_append]
  constructor
  · rintro (hmem | hmem)
    · rw [List.mem_map] at hmem
      obtain ⟨a, ha, rfl⟩ := hmem
      rw [List.mem_filter] at ha
      exact Or.inl ⟨a, ha.1, rfl, by simpa using ha.2⟩
    · cases hsome : r.ttl.isSome
      · rw [hsome] at hmem
        simp at hmem
      · rw [hsome] at hmem
        simp at hmem
        exact Or.inr ⟨hmem, rfl⟩
  · rintro (⟨a, ha, rfl, hfile⟩ | ⟨rfl, hsome⟩)
    · left
      rw [List.mem_map]
      exact ⟨a, List.mem_filter.mpr ⟨ha, by simpa using hfile⟩, rfl⟩
    · right
      rw [hsome]
      simp

/-- C6 counterexample: a successful sweep's response object carries exactly
one field, `message`; there is no `cleaned` field and no `errors` field —
the counts are only interpolated into the message text. -/
theorem claim_c6_counterexample :
    (clean (some ⟨[("a", false)], some [("a", 100)]⟩) "r" 1000
      (fun _ => false)).result =
      .ok [("message", "Cleaned up 1 expired files in repo: r. Errors: 0")] ∧
    [("message", "Cleaned up 1 expired files in repo: r. Errors: 0")].map
      Prod.fst = ["message"] :=
  ⟨rfl, rfl⟩

/-- C6 (amended): a successful sweep returns a single `message` field whose
text embeds the number of expired artifacts deleted and the number of
expired entries whose artifact was missing; no separate `cleaned`/`errors`
fields are returned. -/
theorem claim_c6_clean_response (arts : List (String × Bool)) (m : TTLMap)
    (rn : String) (now : Int) (hnd : (m.map Prod.fst).Nodup) :
    (clean (some ⟨arts, some m⟩) rn now (fun _ => false)).result =
      .ok [("message", cleanMsg rn
        (m.filter (fun p => decide (p.2 < now) && hasArtifact arts p.1)).length
        (m.filter (fun p => decide (p.2 < now) && !(hasArtifact arts p.1))).length)] := by
  rw [clean_ok arts m rn now hnd]

/-- Witness for C6 (amended): index `{a: 100}` with `a` missing on disk at
time 1000 — the response is the single message field reporting 0 cleaned,
1 error. -/
theorem claim_c6_clean_response_witness :
    (clean (some ⟨[], some [("a", 100)]⟩) "r" 1000 (fun _ => false)).result =
      .ok [("message", "Cleaned up 0 expired files in repo: r. Errors: 1")] :=
  (claim_c6_clean_response [] [("a", 100)] "r" 1000 (by decide)).trans (by rfl)

/-- C7 counterexample: when updateTTL's transaction body raises (missing
index file), the surfaced 500 detail interpolates the internal exception's
message — refuting the claim that the surfaced error never contains the
internal exception detail. -/
theorem claim_c7_counterexample :
    (update_ttl (some ⟨[("a", false)], none⟩) "r" "a" 5 0).result =
      .error ⟨500, "Failed to update TTL for file: a: " ++
        (PyExc.fileNotFound "/cvmfs/r/ttl.json").message⟩ ∧
    (PyExc.fileNotFound "/cvmfs/r/ttl.json").message ≠ "" :=
  ⟨rfl, by decide⟩

/-- C7 (amended): whenever the operation body raises inside an open
transaction, the coordinator issues a forced abort and surfaces a 500 error;
for upload and deleteArtifact the detail is a fixed generic string, but for
updateTTL and sweep the detail interpolates the internal exception's
message. -/
theorem claim_c7_abort_and_error_detail :
    (∀ (r : Repo) (rn fn : String) (d ow : Bool) (t now : Int) (e : PyExc),
      fn ∉ PATH_BLACKLIST →
      ¬ (ow = false ∧ hasArtifact r.artifacts fn = true) →
      upload (some r) rn fn d ow t now (some e) =
        ⟨.error ⟨500, "Failed to upload file"⟩, [.txBegin, .txAbort], some r⟩) ∧
    (∀ (r : Repo) (rn fn : String) (t now : Int),
      fn ∉ PATH_BLACKLIST → hasArtifact r.artifacts fn = true → r.ttl = none →
      update_ttl (some r) rn fn t now =
        ⟨.error ⟨500, "Failed to update TTL for file: " ++ fn ++ ": " ++
          (PyExc.fileNotFound ("/cvmfs/" ++ rn ++ "/" ++ TTL_FILENAME)).message⟩,
          [.txBegin, .txAbort], some r⟩) ∧
    (∀ (r : Repo) (rn tn : String),
      tn ∉ PATH_BLACKLIST → hasArtifact r.artifacts tn = true →
      hasKey (r.ttl.getD []) tn = false →
      delete (some r) rn tn =
        ⟨.error ⟨500, "Failed to delete file"⟩, [.txBegin, .txAbort], some r⟩) ∧
    (∀ (arts : List (String × Bool)) (m : TTLMap) (rn : String) (now : Int)
      (fd : String → Bool) (e2 : PyExc),
      cleanLoop now fd m arts m 0 0 = .error e2 →
      clean (some ⟨arts, some m⟩) rn now fd =
        ⟨.error ⟨500, "Failed to clean up expired files: " ++ e2.message⟩,
          [.txBegin, .txAbort], some ⟨arts, some m⟩⟩) := by
  refine ⟨?_, ?_, ?_, ?_⟩
  · intro r rn fn d ow t now e hbl hcf
    simp [upload, hbl, hcf]
  · intro r rn fn t now hbl hart hm
    simp [update_ttl, hbl, hart, hm]
  · intro r rn tn hbl hart hkey
    cases hm : r.ttl with
    | none => simp [delete, hbl, hart, hm]
    | some m =>
      rw [hm] at hkey
      simp only [Option.getD_some] at hkey
      simp [delete, hbl, hart, hm, hkey]
  · intro arts m rn now fd e2 hloop
    simp [clean, hloop]

/-- Witness for C7 (amended), discharging all four hypotheses at concrete
inputs: upload with an injected write failure, updateTTL and delete against
a repository without an index file, and a sweep whose unlink of the expired
artifact `a` fails. -/
theorem claim_c7_abort_and_error_detail_witness :
    upload (some ⟨[], none⟩) "r" "a" false false 5 0
        (some (.ioError "disk full")) =
      ⟨.error ⟨500, "Failed to upload file"⟩, [.txBegin, .txAbort],
        some ⟨[], none⟩⟩ ∧
    update_ttl (some ⟨[("a", false)], none⟩) "r" "a" 5 0 =
      ⟨.error ⟨500, "Failed to update TTL for file: " ++ "a" ++ ": " ++
        (PyExc.fileNotFound ("/cvmfs/" ++ "r" ++ "/" ++ TTL_FILENAME)).message⟩,
        [.txBegin, .txAbort], some ⟨[("a", false)], none⟩⟩ ∧
    delete (some ⟨[("a", false)], none⟩) "r" "a" =
      ⟨.error ⟨500, "Failed to delete file"⟩, [.txBegin, .txAbort],
        some ⟨[("a", false)], none⟩⟩ ∧
    clean (some ⟨[("a", false)], some [("a", 100)]⟩) "r" 1000
        (fun n => n == "a") =
      ⟨.error ⟨500, "Failed to clean up expired files: " ++
        (PyExc.ioError ("could not remove /cvmfs/" ++ "a")).message⟩,
        [.txBegin, .txAbort], some ⟨[("a", false)], some [("a", 100)]⟩⟩ :=
  ⟨claim_c7_abort_and_error_detail.1 ⟨[], none⟩ "r" "a" false false 5 0
      (.ioError "disk full") (by decide) (by simp [hasArtifact]),
   claim_c7_abort_and_error_detail.2.1 ⟨[("a", false)], none⟩ "r" "a" 5 0
      (by decide) rfl rfl,
   claim_c7_abort_and_error_detail.2.2.1 ⟨[("a", false)], none⟩ "r" "a"
      (by decide) rfl rfl,
   claim_c7_abort_and_error_detail.2.2.2 [("a", false)] [("a", 100)] "r" 1000
      (fun n => n == "a") (.ioError ("could not remove /cvmfs/" ++ "a")) rfl⟩

end CvmfsEphemeral
